import Mathlib

/-!
Shallow embedding of the expense-tracker service in `src/main.py`.

The durable SQLite store is modelled as a list of rows together with the
AUTOINCREMENT sequence counter (`nextId`).  Amounts (Python `float`,
SQLite `REAL`) are modelled as exact rationals.  Each tool function of
`main.py` becomes a Lean function from the store state (and its
arguments) to the new store state and the structured return value.
-/

namespace ExpenseTracker

/-- One row of the `expenses` table (see `init_db` in `main.py`). -/
structure Expense where
  id : Nat
  date : String
  amount : Rat
  category : String
  subcategory : String
  note : String
deriving DecidableEq, Repr

/-- The database state: the rows of the `expenses` table in insertion
(rowid) order, plus the AUTOINCREMENT sequence: the id the next insert
will receive.  `init_db` creates the empty table, AUTOINCREMENT starts
at 1. -/
structure DB where
  rows : List Expense
  nextId : Nat
deriving DecidableEq, Repr

/-- The state right after `init_db` on a fresh database file. -/
def initDB : DB := ⟨[], 1⟩

/-- Return value of `add_expense`: `{"status": ..., "id": ...}`. -/
structure AddResult where
  status : String
  id : Nat
deriving DecidableEq, Repr

/-- Return value of `edit_expense` / `delete_expense`:
`{"status": ..., "message": ...}`. -/
structure OpResult where
  status : String
  message : String
deriving DecidableEq, Repr

/-- `add_expense(date, amount, category, subcategory, note)`:
inserts the row (AUTOINCREMENT assigns the id) and returns
`{"status": "success", "id": cur.lastrowid}`.  No validation is
performed before the INSERT. -/
def add_expense (db : DB) (date : String) (amount : Rat) (category : String)
    (subcategory : String) (note : String) : DB × AddResult :=
  let newId := db.nextId
  (⟨db.rows ++ [⟨newId, date, amount, category, subcategory, note⟩], newId + 1⟩,
   ⟨"success", newId⟩)

/-- `list_expenses()`: `SELECT ... FROM expenses ORDER BY id ASC`,
returned as a plain list of row dictionaries. -/
def list_expenses (db : DB) : List Expense :=
  db.rows.mergeSort (fun a b => a.id ≤ b.id)

/-- The f-string `f"Expense with ID {expense_id} not found"` used by both
`edit_expense` and `delete_expense`. -/
def notFoundMsg (expense_id : Nat) : String :=
  "Expense with ID " ++ toString expense_id ++ " not found"

/-- The row update applied by the dynamically built
`UPDATE expenses SET ... WHERE id = ?`: each field that was supplied
(not `None`) is set to the supplied value, the others keep their prior
value.  The `id` column is never part of the SET list. -/
def applyEdit (e : Expense) (date : Option String) (amount : Option Rat)
    (category : Option String) (subcategory : Option String)
    (note : Option String) : Expense :=
  ⟨e.id, date.getD e.date, amount.getD e.amount, category.getD e.category,
   subcategory.getD e.subcategory, note.getD e.note⟩

/-- `edit_expense(expense_id, date, amount, category, subcategory, note)`:
1. `SELECT COUNT(*) WHERE id = ?`; if 0, return the not-found error.
2. Collect the supplied (non-`None`) fields; if none, return the warning.
3. Otherwise run the UPDATE on the rows with that id and return success. -/
def edit_expense (db : DB) (expense_id : Nat) (date : Option String)
    (amount : Option Rat) (category : Option String)
    (subcategory : Option String) (note : Option String) : DB × OpResult :=
  if db.rows.countP (fun e => e.id == expense_id) == 0 then
    (db, ⟨"error", notFoundMsg expense_id⟩)
  else if date.isNone && amount.isNone && category.isNone &&
      subcategory.isNone && note.isNone then
    (db, ⟨"warning", "No changes made - no fields provided"⟩)
  else
    (⟨db.rows.map (fun e =>
        if e.id == expense_id then
          applyEdit e date amount category subcategory note
        else e),
      db.nextId⟩,
     ⟨"success", "Expense " ++ toString expense_id ++ " updated successfully"⟩)

/-- `delete_expense(expense_id)`: `SELECT COUNT(*) WHERE id = ?`; if 0,
return the not-found error; otherwise `DELETE FROM expenses WHERE id = ?`
and return success. -/
def delete_expense (db : DB) (expense_id : Nat) : DB × OpResult :=
  if db.rows.countP (fun e => e.id == expense_id) == 0 then
    (db, ⟨"error", notFoundMsg expense_id⟩)
  else
    (⟨db.rows.filter (fun e => !(e.id == expense_id)), db.nextId⟩,
     ⟨"success", "Expense " ++ toString expense_id ++ " deleted successfully"⟩)

/-- Sum of the `amount` column over a list of rows; `SUM(amount)` with the
`or 0` fallback of `summarize_expenses` makes the empty case 0. -/
def sumAmounts (rows : List Expense) : Rat :=
  (rows.map Expense.amount).sum

/-- The distinct `category` values of the table, in the order SQLite's
`GROUP BY category` produces the groups (ascending category; SQLite
builds a temporary b-tree keyed on the grouping column). -/
def groupedCategories (rows : List Expense) : List String :=
  ((rows.map Expense.category).dedup).mergeSort (fun a b => !(decide (b < a)))

/-- The `by_category` dictionary of `summarize_expenses`:
`SELECT category, SUM(amount) GROUP BY category ORDER BY total DESC`,
modelled as the association list of (category, per-category sum) pairs
sorted by descending sum (stably, from the grouping order). -/
def by_category (db : DB) : List (String × Rat) :=
  ((groupedCategories db.rows).map (fun c =>
      (c, sumAmounts (db.rows.filter (fun e => e.category == c))))).mergeSort
    (fun p q => q.2 ≤ p.2)

/-- Return value of `summarize_expenses`:
`{"total": ..., "by_category": ...}` — note: no `"status"` key. -/
structure Summary where
  total : Rat
  by_category : List (String × Rat)
deriving DecidableEq, Repr

/-- `summarize_expenses()`: total over all rows (0 for the empty table via
`or 0`) and the per-category breakdown. -/
def summarize_expenses (db : DB) : Summary :=
  ⟨sumAmounts db.rows, by_category db⟩

/-- One tool invocation that can change the store state. -/
inductive Op where
  | add : String → Rat → String → String → String → Op
  | edit : Nat → Option String → Option Rat → Option String →
      Option String → Option String → Op
  | del : Nat → Op
deriving DecidableEq, Repr

/-- The state transition of one invocation (the returned dictionary is
dropped). -/
def step (db : DB) : Op → DB
  | .add d a c s n => (add_expense db d a c s n).1
  | .edit i d a c s n => (edit_expense db i d a c s n).1
  | .del i => (delete_expense db i).1

/-- Run a sequence of invocations from a given state. -/
def runOps (db : DB) : List Op → DB
  | [] => db
  | op :: rest => runOps (step db op) rest

/-- The ids returned by the successful creates of a run, in order. -/
def assignedIds (db : DB) : List Op → List Nat
  | [] => []
  | op :: rest =>
    match op with
    | .add d a c s n => (add_expense db d a c s n).2.id :: assignedIds (step db op) rest
    | _ => assignedIds (step db op) rest

/-- The existence check `SELECT COUNT(*) FROM expenses WHERE id = ?`
succeeding: the count is nonzero. -/
def present (db : DB) (expense_id : Nat) : Prop :=
  db.rows.countP (fun e => e.id == expense_id) ≠ 0

instance (db : DB) (expense_id : Nat) : Decidable (present db expense_id) := by
  unfold present; infer_instance

/-- JSON-shaped values, used to state which operations return a
dictionary with a `status` key and which do not. -/
inductive JVal where
  | jstr : String → JVal
  | jnum : Rat → JVal
  | jint : Nat → JVal
  | jobj : List (String × JVal) → JVal
  | jarr : List JVal → JVal

/-- The dictionary literal returned by `add_expense`. -/
def addResultJson (r : AddResult) : JVal :=
  .jobj [("status", .jstr r.status), ("id", .jint r.id)]

/-- The dictionary literal returned by `edit_expense` and
`delete_expense`. -/
def opResultJson (r : OpResult) : JVal :=
  .jobj [("status", .jstr r.status), ("message", .jstr r.message)]

/-- One row of `list_expenses`, as `dict(zip(cols, row))` with the SELECT
column order `id, date, amount, category, subcategory, note`. -/
def expenseJson (e : Expense) : JVal :=
  .jobj [("id", .jint e.id), ("date", .jstr e.date), ("amount", .jnum e.amount),
         ("category", .jstr e.category), ("subcategory", .jstr e.subcategory),
         ("note", .jstr e.note)]

/-- The value returned by `list_expenses`: a bare JSON array, not a
dictionary. -/
def listJson (db : DB) : JVal :=
  .jarr ((list_expenses db).map expenseJson)

/-- The dictionary literal returned by `summarize_expenses`: keys
`total` and `by_category` only. -/
def summarizeJson (db : DB) : JVal :=
  .jobj [("total", .jnum (summarize_expenses db).total),
         ("by_category",
          .jobj ((summarize_expenses db).by_category.map
            (fun p => (p.1, JVal.jnum p.2))))]

/-- A `status` value as the spec enumerates them. -/
def isStatusVal : JVal → Bool
  | .jstr v => v == "success" || v == "warning" || v == "error"
  | _ => false

/-- Whether a JSON value is a dictionary containing a `status` key whose
value is one of `success`, `warning`, `error`. -/
def hasStatusField : JVal → Bool
  | .jobj l => l.any (fun p => p.1 == "status" && isStatusVal p.2)
  | _ => false

/-- A sample one-row store: the state after one create. -/
def sampleDB : DB :=
  (add_expense initDB "2024-01-01" 50 "Food" "" "").1

/-- A sample two-row store: the state after two creates. -/
def sampleDB2 : DB :=
  (add_expense sampleDB "2024-01-02" 20 "Transport" "" "").1

/-! ## Branch characterizations of the operations -/

lemma countP_beq_false {db : DB} {expense_id : Nat} (h : present db expense_id) :
    (db.rows.countP (fun e => e.id == expense_id) == 0) = false :=
  beq_eq_false_iff_ne.mpr h

lemma countP_beq_true {db : DB} {expense_id : Nat} (h : ¬ present db expense_id) :
    (db.rows.countP (fun e => e.id == expense_id) == 0) = true := by
  have h0 : db.rows.countP (fun e => e.id == expense_id) = 0 := by
    by_contra hc; exact h hc
  simp [h0]

lemma edit_expense_absent (db : DB) (expense_id : Nat) (date : Option String)
    (amount : Option Rat) (category : Option String) (subcategory : Option String)
    (note : Option String) (h : ¬ present db expense_id) :
    edit_expense db expense_id date amount category subcategory note =
      (db, ⟨"error", notFoundMsg expense_id⟩) := by
  simp [edit_expense, countP_beq_true h]

lemma edit_expense_nofields (db : DB) (expense_id : Nat)
    (h : present db expense_id) :
    edit_expense db expense_id none none none none none =
      (db, ⟨"warning", "No changes made - no fields provided"⟩) := by
  simp [edit_expense, countP_beq_false h]

lemma edit_expense_success (db : DB) (expense_id : Nat) (date : Option String)
    (amount : Option Rat) (category : Option String) (subcategory : Option String)
    (note : Option String) (h : present db expense_id)
    (hsome : ¬(date = none ∧ amount = none ∧ category = none ∧
      subcategory = none ∧ note = none)) :
    edit_expense db expense_id date amount category subcategory note =
      (⟨db.rows.map (fun e => if e.id == expense_id then
          applyEdit e date amount category subcategory note else e), db.nextId⟩,
       ⟨"success", "Expense " ++ toString expense_id ++ " updated successfully"⟩) := by
  have hb : (date.isNone && amount.isNone && category.isNone &&
      subcategory.isNone && note.isNone) = false := by
    rw [Bool.eq_false_iff]
    intro ht
    apply hsome
    simpa [Bool.and_eq_true, Option.isNone_iff_eq_none, and_assoc] using ht
  simp [edit_expense, countP_beq_false h, hb]

lemma delete_expense_absent (db : DB) (expense_id : Nat)
    (h : ¬ present db expense_id) :
    delete_expense db expense_id = (db, ⟨"error", notFoundMsg expense_id⟩) := by
  simp [delete_expense, countP_beq_true h]

lemma delete_expense_present (db : DB) (expense_id : Nat)
    (h : present db expense_id) :
    delete_expense db expense_id =
      (⟨db.rows.filter (fun e => !(e.id == expense_id)), db.nextId⟩,
       ⟨"success", "Expense " ++ toString expense_id ++ " deleted successfully"⟩) := by
  simp [delete_expense, countP_beq_false h]

lemma not_present_after_filter (db : DB) (expense_id : Nat) :
    ¬ present
      (⟨db.rows.filter (fun e => !(e.id == expense_id)), db.nextId⟩ : DB)
      expense_id := by
  simp only [present, ne_eq, not_not]
  rw [List.countP_eq_zero]
  intro a ha
  have := (List.mem_filter.mp ha).2
  simp at this
  simp [this]

/-! ## Claims -/

/-- C1, counterexample: `add_expense` performs no validation. On the
fresh store, a create with empty `date` and empty `category` returns
status `success` and inserts the record, contradicting the claim that
it fails with a ValidationError and inserts nothing. -/
theorem C1_counterexample :
    (add_expense initDB "" 5 "" "" "").2.status = "success" ∧
    (add_expense initDB "" 5 "" "" "").1.rows = [⟨1, "", 5, "", "", ""⟩] :=
  ⟨rfl, rfl⟩

/-- C1, amended: create performs no validation at all. For every input,
including empty `date` or `category` strings, `add_expense` returns
status `success` and appends exactly one record holding the supplied
field values verbatim. -/
theorem C1_create_no_validation (db : DB) (date : String) (amount : Rat)
    (category : String) (subcategory : String) (note : String) :
    (add_expense db date amount category subcategory note).2.status = "success" ∧
    (add_expense db date amount category subcategory note).2.id = db.nextId ∧
    (add_expense db date amount category subcategory note).1.rows =
      db.rows ++ [⟨db.nextId, date, amount, category, subcategory, note⟩] :=
  ⟨rfl, rfl, rfl⟩

/-- C2: update has exactly three outcomes, decided in this order:
absent id yields the not-found error with no mutation (regardless of
which fields are supplied, so in particular with zero fields); present
id with zero supplied fields yields the warning with no mutation;
otherwise the supplied fields are applied and status is `success`. -/
theorem C2_update_three_outcomes (db : DB) (expense_id : Nat)
    (date : Option String) (amount : Option Rat) (category : Option String)
    (subcategory : Option String) (note : Option String) :
    (¬ present db expense_id →
      edit_expense db expense_id date amount category subcategory note =
        (db, ⟨"error", notFoundMsg expense_id⟩)) ∧
    (present db expense_id → date = none → amount = none → category = none →
      subcategory = none → note = none →
      edit_expense db expense_id date amount category subcategory note =
        (db, ⟨"warning", "No changes made - no fields provided"⟩)) ∧
    (present db expense_id →
      ¬(date = none ∧ amount = none ∧ category = none ∧
        subcategory = none ∧ note = none) →
      (edit_expense db expense_id date amount category subcategory note).2.status =
        "success") := by
  refine ⟨fun h => edit_expense_absent _ _ _ _ _ _ _ h, ?_, ?_⟩
  · intro hpres hd ha hc hs hn
    subst hd; subst ha; subst hc; subst hs; subst hn
    exact edit_expense_nofields _ _ hpres
  · intro hpres hsome
    rw [edit_expense_success _ _ _ _ _ _ _ hpres hsome]

/-- C2, witness: on the empty store an update of id 1 (no fields) is the
not-found error; on a one-row store an update of id 1 with no fields is
the warning; with a field supplied it succeeds. -/
theorem C2_update_three_outcomes_witness :
    edit_expense initDB 1 none none none none none =
      (initDB, ⟨"error", notFoundMsg 1⟩) ∧
    edit_expense sampleDB 1 none none none none none =
      (sampleDB, ⟨"warning", "No changes made - no fields provided"⟩) ∧
    (edit_expense sampleDB 1 (some "2024-02-02") none none none none).2.status =
      "success" := by
  refine ⟨?_, ?_, ?_⟩
  · exact (C2_update_three_outcomes initDB 1 none none none none none).1 (by decide)
  · exact (C2_update_three_outcomes sampleDB 1 none none none none none).2.1
      (by decide) rfl rfl rfl rfl rfl
  · exact (C2_update_three_outcomes sampleDB 1 (some "2024-02-02")
      none none none none).2.2 (by decide) (by simp)

/-- C3: a successful update changes exactly the supplied fields of the
records with the given id to the supplied values; every unsupplied
field retains its prior value, the `id` is untouched, and every record
with a different id (as well as the id sequence and the row order) is
completely unchanged. -/
theorem C3_update_frame (db : DB) (expense_id : Nat) (date : Option String)
    (amount : Option Rat) (category : Option String) (subcategory : Option String)
    (note : Option String) (hpres : present db expense_id)
    (hsome : ¬(date = none ∧ amount = none ∧ category = none ∧
      subcategory = none ∧ note = none)) :
    (edit_expense db expense_id date amount category subcategory note).2.status =
      "success" ∧
    (edit_expense db expense_id date amount category subcategory note).1.nextId =
      db.nextId ∧
    (edit_expense db expense_id date amount category subcategory note).1.rows.length =
      db.rows.length ∧
    ∀ i (h1 : i < db.rows.length)
      (h2 : i <
        (edit_expense db expense_id date amount category subcategory note).1.rows.length),
      (db.rows[i].id ≠ expense_id →
        (edit_expense db expense_id date amount category subcategory note).1.rows[i] =
          db.rows[i]) ∧
      (db.rows[i].id = expense_id →
        (edit_expense db expense_id date amount category subcategory note).1.rows[i] =
          ⟨db.rows[i].id, date.getD db.rows[i].date, amount.getD db.rows[i].amount,
           category.getD db.rows[i].category,
           subcategory.getD db.rows[i].subcategory,
           note.getD db.rows[i].note⟩) := by
  rw [edit_expense_success _ _ _ _ _ _ _ hpres hsome]
  refine ⟨rfl, rfl, by simp, ?_⟩
  intro i h1 h2
  constructor
  · intro hne
    simp [List.getElem_map, hne]
  · intro heq
    simp [List.getElem_map, heq, applyEdit]

/-- C3, witness: on the two-row sample store, updating only the amount
of record 2 succeeds and keeps both rows, with record 2's other fields
and record 1 unchanged. -/
theorem C3_update_frame_witness :
    (edit_expense sampleDB2 2 none (some 25) none none none).2.status = "success" ∧
    (edit_expense sampleDB2 2 none (some 25) none none none).1.rows =
      [⟨1, "2024-01-01", 50, "Food", "", ""⟩,
       ⟨2, "2024-01-02", 25, "Transport", "", ""⟩] := by
  have h := C3_update_frame sampleDB2 2 none (some 25) none none none
    (by decide) (by simp)
  have hlen : (edit_expense sampleDB2 2 none (some 25) none none none).1.rows.length = 2 := by
    rw [h.2.2.1]; rfl
  refine ⟨h.1, ?_⟩
  apply List.ext_getElem (by rw [hlen]; rfl)
  intro i h1 h2
  rw [hlen] at h1
  interval_cases i
  · have h0 := (h.2.2.2 0 (by decide) (by omega)).1 (by decide)
    rw [h0]; rfl
  · have hone := (h.2.2.2 1 (by decide) (by omega)).2 (by decide)
    rw [hone]; rfl

/-- C7: delete on an absent id returns the not-found error — the very
same `status`/`message` pair `edit_expense` returns for that id — and
leaves the store unchanged; delete on a present id removes exactly the
records with that id, returns success, and an immediate second delete
of the same id returns status `error`. -/
theorem C7_delete_semantics (db : DB) (expense_id : Nat) :
    (¬ present db expense_id →
      delete_expense db expense_id = (db, ⟨"error", notFoundMsg expense_id⟩) ∧
      (delete_expense db expense_id).2 =
        (edit_expense db expense_id none none none none none).2) ∧
    (present db expense_id →
      (delete_expense db expense_id).2.status = "success" ∧
      (delete_expense db expense_id).1.rows =
        db.rows.filter (fun e => !(e.id == expense_id)) ∧
      (delete_expense db expense_id).1.nextId = db.nextId ∧
      ¬ present (delete_expense db expense_id).1 expense_id ∧
      (delete_expense (delete_expense db expense_id).1 expense_id).2 =
        ⟨"error", notFoundMsg expense_id⟩) := by
  constructor
  · intro habs
    rw [delete_expense_absent _ _ habs, edit_expense_absent _ _ _ _ _ _ _ habs]
    exact ⟨rfl, rfl⟩
  · intro hpres
    rw [delete_expense_present _ _ hpres]
    refine ⟨rfl, rfl, rfl, not_present_after_filter db expense_id, ?_⟩
    rw [delete_expense_absent _ _ (not_present_after_filter db expense_id)]

/-- C7, witness: deleting id 1 from the empty store errors; deleting
id 1 from the one-row sample store succeeds, and deleting it again
errors with the not-found message. -/
theorem C7_delete_semantics_witness :
    (delete_expense initDB 1).2.status = "error" ∧
    (delete_expense sampleDB 1).2.status = "success" ∧
    (delete_expense (delete_expense sampleDB 1).1 1).2 =
      ⟨"error", notFoundMsg 1⟩ := by
  refine ⟨?_, ?_, ?_⟩
  · rw [((C7_delete_semantics initDB 1).1 (by decide)).1]
  · exact ((C7_delete_semantics sampleDB 1).2 (by decide)).1
  · exact ((C7_delete_semantics sampleDB 1).2 (by decide)).2.2.2.2

/-- C10: update performs no validation of supplied values. For a present
id, supplying an empty `date`, an empty `category` and an arbitrary
amount (negative included) returns status `success` and stores the
supplied values exactly as given; and whatever fields are supplied, an
update of a present id only ever returns `success` or `warning`, never
a validation error. -/
theorem C10_update_no_validation (db : DB) (expense_id : Nat)
    (hpres : present db expense_id) (d : String) (q : Rat) (c : String) :
    (edit_expense db expense_id (some d) (some q) (some c) none none).2.status =
      "success" ∧
    (edit_expense db expense_id (some d) (some q) (some c) none none).1.rows =
      db.rows.map (fun e => if e.id == expense_id then
        ⟨e.id, d, q, c, e.subcategory, e.note⟩ else e) ∧
    ∀ (d2 : Option String) (q2 : Option Rat) (c2 s2 n2 : Option String),
      (edit_expense db expense_id d2 q2 c2 s2 n2).2.status = "success" ∨
      (edit_expense db expense_id d2 q2 c2 s2 n2).2.status = "warning" := by
  have hsome : ¬((some d : Option String) = none ∧ (some q : Option Rat) = none ∧
      (some c : Option String) = none ∧ (none : Option String) = none ∧
      (none : Option String) = none) := by simp
  refine ⟨?_, ?_, ?_⟩
  · rw [edit_expense_success _ _ _ _ _ _ _ hpres hsome]
  · rw [edit_expense_success _ _ _ _ _ _ _ hpres hsome]
    simp [applyEdit]
  · intro d2 q2 c2 s2 n2
    by_cases hall : d2 = none ∧ q2 = none ∧ c2 = none ∧ s2 = none ∧ n2 = none
    · right
      obtain ⟨h1, h2, h3, h4, h5⟩ := hall
      subst h1; subst h2; subst h3; subst h4; subst h5
      rw [edit_expense_nofields _ _ hpres]
    · left
      rw [edit_expense_success _ _ _ _ _ _ _ hpres hall]

/-- C10, witness: on the one-row sample store, updating record 1 with
empty date, empty category and a negative amount returns `success`. -/
theorem C10_update_no_validation_witness :
    (edit_expense sampleDB 1 (some "") (some (-5)) (some "") none none).2.status =
      "success" :=
  (C10_update_no_validation sampleDB 1 (by decide) "" (-5) "").1

/-! ## Aggregation lemmas -/

lemma mem_groupedCategories {rows : List Expense} {c : String} :
    c ∈ groupedCategories rows ↔ c ∈ rows.map Expense.category := by
  simp [groupedCategories, List.mem_mergeSort, List.mem_dedup]

lemma nodup_groupedCategories (rows : List Expense) :
    (groupedCategories rows).Nodup :=
  ((List.mergeSort_perm _ _).nodup_iff).mpr (List.nodup_dedup _)

lemma mem_by_category {db : DB} {c : String} {q : Rat} :
    (c, q) ∈ by_category db ↔
      (c ∈ db.rows.map Expense.category ∧
       q = sumAmounts (db.rows.filter (fun e => e.category == c))) := by
  unfold by_category
  rw [List.mem_mergeSort, List.mem_map]
  constructor
  · rintro ⟨c2, hc2, heq⟩
    have h1 : c2 = c := congrArg Prod.fst heq
    have h2 := congrArg Prod.snd heq
    subst h1
    exact ⟨mem_groupedCategories.mp hc2, h2.symm⟩
  · rintro ⟨hc, hq⟩
    exact ⟨c, mem_groupedCategories.mpr hc, by rw [hq]⟩

lemma by_category_sorted (db : DB) :
    (by_category db).Pairwise (fun p q => q.2 ≤ p.2) := by
  unfold by_category
  refine List.Pairwise.imp ?_ (List.sorted_mergeSort ?_ ?_ _)
  · intro a b hab
    exact of_decide_eq_true hab
  · intro a b c hab hbc
    exact decide_eq_true (le_trans (of_decide_eq_true hbc) (of_decide_eq_true hab))
  · intro a b
    rcases le_total b.2 a.2 with h | h <;> simp [h]

lemma by_category_keys_nodup (db : DB) :
    ((by_category db).map Prod.fst).Nodup := by
  have hperm : ((by_category db).map Prod.fst).Perm (groupedCategories db.rows) := by
    unfold by_category
    refine ((List.mergeSort_perm _ _).map Prod.fst).trans ?_
    rw [List.map_map]
    have hfun : (Prod.fst ∘ fun c : String =>
        (c, sumAmounts (db.rows.filter (fun e => e.category == c)))) = id := rfl
    rw [hfun, List.map_id]
  exact hperm.nodup_iff.mpr (nodup_groupedCategories _)

lemma sumAmounts_filter_not (rows : List Expense) (p : Expense → Bool) :
    sumAmounts (rows.filter p) + sumAmounts (rows.filter (fun e => !p e)) =
      sumAmounts rows := by
  unfold sumAmounts
  rw [← List.sum_append, ← List.map_append]
  exact List.Perm.sum_eq (List.Perm.map _ (List.filter_append_perm p rows))

lemma sum_over_categories (cats : List String) :
    ∀ rows : List Expense, cats.Nodup → (∀ e ∈ rows, e.category ∈ cats) →
      (cats.map (fun c => sumAmounts (rows.filter (fun e => e.category == c)))).sum =
        sumAmounts rows := by
  induction cats with
  | nil =>
    intro rows _ hcov
    cases rows with
    | nil => simp [sumAmounts]
    | cons e rest => exact absurd (hcov e (by simp)) (by simp)
  | cons c cs ih =>
    intro rows hnd hcov
    rw [List.map_cons, List.sum_cons]
    have hmapeq : cs.map (fun c2 => sumAmounts (rows.filter (fun e => e.category == c2))) =
        cs.map (fun c2 => sumAmounts
          ((rows.filter (fun e => !(e.category == c))).filter
            (fun e => e.category == c2))) := by
      apply List.map_congr_left
      intro c2 hc2
      rw [List.filter_filter]
      congr 1
      apply List.filter_congr
      intro e _
      by_cases he : e.category = c2
      · have hcc : c2 ≠ c := by
          intro h
          subst h
          exact (List.nodup_cons.mp hnd).1 hc2
        simp [he, hcc]
      · simp [he]
    rw [hmapeq, ih (rows.filter (fun e => !(e.category == c)))
      (List.nodup_cons.mp hnd).2 ?_, sumAmounts_filter_not]
    intro e he
    have hmem := List.mem_filter.mp he
    rcases List.mem_cons.mp (hcov e hmem.1) with h | h
    · exfalso
      have := hmem.2
      simp [h] at this
    · exact h

/-- C4: summarize always returns the total as the sum of `amount` over
all present records (0 on the empty store), and `by_category` as an
association list with pairwise-distinct keys that contains exactly the
present categories, each mapped to the sum of `amount` over that
category's records, sorted by descending per-category sum.  The result
carries no error: it is defined for every store state. -/
theorem C4_summarize_correct (db : DB) :
    (summarize_expenses db).total = sumAmounts db.rows ∧
    (db.rows = [] → (summarize_expenses db).total = 0) ∧
    (∀ c q, (c, q) ∈ (summarize_expenses db).by_category ↔
      (c ∈ db.rows.map Expense.category ∧
       q = sumAmounts (db.rows.filter (fun e => e.category == c)))) ∧
    ((summarize_expenses db).by_category.map Prod.fst).Nodup ∧
    (summarize_expenses db).by_category.Pairwise (fun p q => q.2 ≤ p.2) := by
  refine ⟨rfl, ?_, ?_, by_category_keys_nodup db, by_category_sorted db⟩
  · intro h
    simp [summarize_expenses, sumAmounts, h]
  · intro c q
    exact mem_by_category

/-- C4, witness: the empty store summarizes to total 0; the two-row
sample store has total 70 and maps Food to 50 and Transport to 20. -/
theorem C4_summarize_correct_witness :
    (summarize_expenses initDB).total = 0 ∧
    (summarize_expenses sampleDB2).total = 70 ∧
    ("Food", (50 : Rat)) ∈ (summarize_expenses sampleDB2).by_category ∧
    ("Transport", (20 : Rat)) ∈ (summarize_expenses sampleDB2).by_category := by
  have hrows : sampleDB2.rows =
      [⟨1, "2024-01-01", 50, "Food", "", ""⟩,
       ⟨2, "2024-01-02", 20, "Transport", "", ""⟩] := rfl
  refine ⟨(C4_summarize_correct initDB).2.1 rfl, ?_, ?_, ?_⟩
  · rw [(C4_summarize_correct sampleDB2).1, hrows]
    norm_num [sumAmounts]
  · refine ((C4_summarize_correct sampleDB2).2.2.1 "Food" 50).mpr
      ⟨by decide, ?_⟩
    have hf : sampleDB2.rows.filter (fun e => e.category == "Food") =
        [⟨1, "2024-01-01", 50, "Food", "", ""⟩] := rfl
    rw [hf]
    norm_num [sumAmounts]
  · refine ((C4_summarize_correct sampleDB2).2.2.1 "Transport" 20).mpr
      ⟨by decide, ?_⟩
    have ht : sampleDB2.rows.filter (fun e => e.category == "Transport") =
        [⟨2, "2024-01-02", 20, "Transport", "", ""⟩] := rfl
    rw [ht]
    norm_num [sumAmounts]

/-- C9: the values of the `by_category` breakdown sum to the `total`
field of the same summarize result. -/
theorem C9_by_category_sums_to_total (db : DB) :
    ((summarize_expenses db).by_category.map Prod.snd).sum =
      (summarize_expenses db).total := by
  show ((by_category db).map Prod.snd).sum = sumAmounts db.rows
  have hperm : ((by_category db).map Prod.snd).Perm
      ((groupedCategories db.rows).map
        (fun c => sumAmounts (db.rows.filter (fun e => e.category == c)))) := by
    unfold by_category
    refine ((List.mergeSort_perm _ _).map Prod.snd).trans ?_
    rw [List.map_map]
    exact List.Perm.refl _
  rw [hperm.sum_eq]
  have hperm2 : ((groupedCategories db.rows).map
      (fun c => sumAmounts (db.rows.filter (fun e => e.category == c)))).Perm
      (((db.rows.map Expense.category).dedup).map
        (fun c => sumAmounts (db.rows.filter (fun e => e.category == c)))) :=
    (List.mergeSort_perm _ _).map _
  rw [hperm2.sum_eq]
  apply sum_over_categories
  · exact List.nodup_dedup _
  · intro e he
    rw [List.mem_dedup]
    exact List.mem_map_of_mem Expense.category he

/-! ## Invariants of operation sequences -/

lemma step_add_def (db : DB) (d : String) (a : Rat) (c s n : String) :
    step db (Op.add d a c s n) = (add_expense db d a c s n).1 := rfl

lemma step_edit_def (db : DB) (i : Nat) (d : Option String) (a : Option Rat)
    (c s n : Option String) :
    step db (Op.edit i d a c s n) = (edit_expense db i d a c s n).1 := rfl

lemma step_del_def (db : DB) (i : Nat) :
    step db (Op.del i) = (delete_expense db i).1 := rfl

lemma assignedIds_cons_add (db : DB) (d : String) (a : Rat) (c s n : String)
    (rest : List Op) :
    assignedIds db (Op.add d a c s n :: rest) =
      db.nextId :: assignedIds (step db (Op.add d a c s n)) rest := rfl

lemma assignedIds_cons_edit (db : DB) (i : Nat) (d : Option String)
    (a : Option Rat) (c s n : Option String) (rest : List Op) :
    assignedIds db (Op.edit i d a c s n :: rest) =
      assignedIds (step db (Op.edit i d a c s n)) rest := rfl

lemma assignedIds_cons_del (db : DB) (i : Nat) (rest : List Op) :
    assignedIds db (Op.del i :: rest) =
      assignedIds (step db (Op.del i)) rest := rfl

lemma edit_expense_state (db : DB) (i : Nat) (d : Option String) (a : Option Rat)
    (c s n : Option String) :
    (edit_expense db i d a c s n).1.nextId = db.nextId ∧
    ((edit_expense db i d a c s n).1.rows).map Expense.id =
      db.rows.map Expense.id := by
  by_cases hp : present db i
  · by_cases hall : d = none ∧ a = none ∧ c = none ∧ s = none ∧ n = none
    · obtain ⟨h1, h2, h3, h4, h5⟩ := hall
      subst h1; subst h2; subst h3; subst h4; subst h5
      rw [edit_expense_nofields _ _ hp]
      exact ⟨rfl, rfl⟩
    · rw [edit_expense_success _ _ _ _ _ _ _ hp hall]
      refine ⟨rfl, ?_⟩
      show (db.rows.map _).map Expense.id = db.rows.map Expense.id
      rw [List.map_map]
      apply List.map_congr_left
      intro e _
      by_cases hid : (e.id == i) = true
      · simp [Function.comp, hid, applyEdit]
      · simp [Function.comp, hid]
  · rw [edit_expense_absent _ _ _ _ _ _ _ hp]
    exact ⟨rfl, rfl⟩

lemma delete_expense_state (db : DB) (i : Nat) :
    (delete_expense db i).1.nextId = db.nextId ∧
    ((delete_expense db i).1.rows).Sublist db.rows := by
  by_cases hp : present db i
  · rw [delete_expense_present _ _ hp]
    exact ⟨rfl, List.filter_sublist _⟩
  · rw [delete_expense_absent _ _ hp]
    exact ⟨rfl, List.Sublist.refl _⟩

lemma step_nextId_mono (db : DB) (op : Op) : db.nextId ≤ (step db op).nextId := by
  cases op with
  | add d a c s n => exact Nat.le_succ _
  | edit i d a c s n =>
    rw [step_edit_def]
    exact le_of_eq (edit_expense_state db i d a c s n).1.symm
  | del i =>
    rw [step_del_def]
    exact le_of_eq (delete_expense_state db i).1.symm

lemma assignedIds_ge (ops : List Op) :
    ∀ db : DB, ∀ i ∈ assignedIds db ops, db.nextId ≤ i := by
  induction ops with
  | nil =>
    intro db i hi
    simp [assignedIds] at hi
  | cons op rest ih =>
    intro db i hi
    have hmono := step_nextId_mono db op
    cases op with
    | add d a c s n =>
      rw [assignedIds_cons_add] at hi
      rcases List.mem_cons.mp hi with h | h
      · exact le_of_eq h.symm
      · exact le_trans hmono (ih _ i h)
    | edit j d a c s n =>
      rw [assignedIds_cons_edit] at hi
      exact le_trans hmono (ih _ i hi)
    | del j =>
      rw [assignedIds_cons_del] at hi
      exact le_trans hmono (ih _ i hi)

lemma assignedIds_pairwise (ops : List Op) :
    ∀ db : DB, (assignedIds db ops).Pairwise (fun a b => a < b) := by
  induction ops with
  | nil =>
    intro db
    simp [assignedIds]
  | cons op rest ih =>
    intro db
    cases op with
    | add d a c s n =>
      rw [assignedIds_cons_add]
      refine List.Pairwise.cons ?_ (ih _)
      intro j hj
      have h1 := assignedIds_ge rest (step db (Op.add d a c s n)) j hj
      have h2 : (step db (Op.add d a c s n)).nextId = db.nextId + 1 := rfl
      omega
    | edit j d a c s n =>
      rw [assignedIds_cons_edit]
      exact ih _
    | del j =>
      rw [assignedIds_cons_del]
      exact ih _

/-- The invariant of every reachable store state: each stored id is
below the AUTOINCREMENT sequence, and stored ids are pairwise distinct. -/
def goodDB (db : DB) : Prop :=
  (∀ e ∈ db.rows, e.id < db.nextId) ∧ (db.rows.map Expense.id).Nodup

lemma goodDB_init : goodDB initDB := by
  constructor <;> simp [initDB]

lemma goodDB_step (db : DB) (op : Op) (h : goodDB db) : goodDB (step db op) := by
  obtain ⟨hbound, hnd⟩ := h
  cases op with
  | add d a c s n =>
    constructor
    · intro e he
      have he2 : e ∈ db.rows ++ [(⟨db.nextId, d, a, c, s, n⟩ : Expense)] := he
      show e.id < db.nextId + 1
      rcases List.mem_append.mp he2 with h | h
      · exact lt_trans (hbound e h) (Nat.lt_succ_self _)
      · rw [List.mem_singleton] at h
        subst h
        exact Nat.lt_succ_self _
    · show ((db.rows ++ [(⟨db.nextId, d, a, c, s, n⟩ : Expense)]).map Expense.id).Nodup
      rw [List.map_append]
      refine List.Nodup.append hnd (by simp) ?_
      intro x hx1 hx2
      simp at hx2
      subst hx2
      obtain ⟨e, he, hid⟩ := List.mem_map.mp hx1
      exact absurd (hbound e he) (by omega)
  | edit i d a c s n =>
    rw [step_edit_def]
    have hs := edit_expense_state db i d a c s n
    constructor
    · intro e he
      have hidmem : e.id ∈ db.rows.map Expense.id := by
        rw [← hs.2]
        exact List.mem_map_of_mem Expense.id he
      obtain ⟨e0, he0, hid⟩ := List.mem_map.mp hidmem
      rw [hs.1, ← hid]
      exact hbound e0 he0
    · rw [hs.2]
      exact hnd
  | del i =>
    rw [step_del_def]
    have hs := delete_expense_state db i
    constructor
    · intro e he
      rw [hs.1]
      exact hbound e (hs.2.subset he)
    · exact hnd.sublist (hs.2.map Expense.id)

lemma goodDB_runOps (ops : List Op) : ∀ db, goodDB db → goodDB (runOps db ops) := by
  induction ops with
  | nil => intro db h; exact h
  | cons op rest ih => intro db h; exact ih _ (goodDB_step db op h)

lemma runOps_ids_from_assigned (ops : List Op) :
    ∀ db : DB, ∀ e ∈ (runOps db ops).rows,
      e.id ∈ db.rows.map Expense.id ∨ e.id ∈ assignedIds db ops := by
  induction ops with
  | nil =>
    intro db e he
    exact Or.inl (List.mem_map_of_mem Expense.id he)
  | cons op rest ih =>
    intro db e he
    have hrec := ih (step db op) e he
    cases op with
    | add d a c s n =>
      rw [assignedIds_cons_add]
      rcases hrec with h | h
      · have h2 : e.id ∈ (db.rows ++ [(⟨db.nextId, d, a, c, s, n⟩ : Expense)]).map
            Expense.id := h
        rw [List.map_append] at h2
        rcases List.mem_append.mp h2 with h3 | h3
        · exact Or.inl h3
        · simp at h3
          exact Or.inr (by simp [h3])
      · exact Or.inr (List.mem_cons_of_mem _ h)
    | edit i d a c s n =>
      rw [assignedIds_cons_edit]
      rcases hrec with h | h
      · left
        rw [step_edit_def] at h
        rw [(edit_expense_state db i d a c s n).2] at h
        exact h
      · exact Or.inr h
    | del i =>
      rw [assignedIds_cons_del]
      rcases hrec with h | h
      · left
        rw [step_del_def] at h
        obtain ⟨e0, he0, hid⟩ := List.mem_map.mp h
        have he1 : e0 ∈ db.rows := (delete_expense_state db i).2.subset he0
        exact hid ▸ List.mem_map_of_mem Expense.id he1
      · exact Or.inr h

/-- C5: over any sequence of invocations from the fresh store, the ids
returned by the creates are strictly increasing in order of assignment
(hence never reused, even after deletes); at every reachable state the
stored ids are pairwise distinct, below the id sequence, and all come
from some earlier create (ids are never invented or mutated). -/
theorem C5_ids_monotone_unique (ops : List Op) :
    (assignedIds initDB ops).Pairwise (fun a b => a < b) ∧
    ((runOps initDB ops).rows.map Expense.id).Nodup ∧
    (∀ e ∈ (runOps initDB ops).rows, e.id < (runOps initDB ops).nextId) ∧
    (∀ e ∈ (runOps initDB ops).rows, e.id ∈ assignedIds initDB ops) := by
  refine ⟨assignedIds_pairwise ops initDB,
    (goodDB_runOps ops initDB goodDB_init).2,
    (goodDB_runOps ops initDB goodDB_init).1, ?_⟩
  intro e he
  rcases runOps_ids_from_assigned ops initDB e he with h | h
  · simp [initDB] at h
  · exact h

/-- A demonstration run: create, delete the record, create again. -/
def demoOps : List Op :=
  [Op.add "2024-01-01" 50 "Food" "" "", Op.del 1,
   Op.add "2024-01-02" 20 "Food" "" ""]

/-- C5, witness: in the create/delete/create run the assigned ids are
[1, 2] — strictly increasing, id 1 not reused after its delete — and
the surviving record's id 2 is among the assigned ids. -/
theorem C5_ids_monotone_unique_witness :
    (assignedIds initDB demoOps).Pairwise (fun a b => a < b) ∧
    assignedIds initDB demoOps = [1, 2] ∧
    (⟨2, "2024-01-02", 20, "Food", "", ""⟩ : Expense).id ∈
      assignedIds initDB demoOps := by
  refine ⟨(C5_ids_monotone_unique demoOps).1, by decide, ?_⟩
  exact (C5_ids_monotone_unique demoOps).2.2.2
    ⟨2, "2024-01-02", 20, "Food", "", ""⟩ (by decide)

/-- Whether an invocation is a create. -/
def isAdd : Op → Bool
  | .add _ _ _ _ _ => true
  | _ => false

lemma runOps_adds_length (ops : List Op) :
    ∀ db : DB, (∀ op ∈ ops, isAdd op = true) →
      (runOps db ops).rows.length = db.rows.length + ops.length := by
  induction ops with
  | nil =>
    intro db _
    simp [runOps]
  | cons op rest ih =>
    intro db hall
    cases op with
    | add d a c s n =>
      have h2 := ih (step db (Op.add d a c s n))
        (fun o ho => hall o (List.mem_cons_of_mem _ ho))
      show (runOps (step db (Op.add d a c s n)) rest).rows.length =
        db.rows.length + (rest.length + 1)
      rw [h2]
      show (db.rows ++ [(⟨db.nextId, d, a, c, s, n⟩ : Expense)]).length + rest.length =
        db.rows.length + (rest.length + 1)
      simp
      omega
    | edit i d a c s n =>
      exact absurd (hall _ (List.mem_cons_self _ _)) (by simp [isAdd])
    | del i =>
      exact absurd (hall _ (List.mem_cons_self _ _)) (by simp [isAdd])

/-- C6: list returns exactly the stored records (a permutation of the
table) sorted by ascending id; the empty store yields the empty
sequence, not an error; and after N creates and no other operations the
listing has exactly N records. -/
theorem C6_list_sorted_complete :
    list_expenses initDB = [] ∧
    (∀ db : DB, (list_expenses db).Perm db.rows ∧
      (list_expenses db).Pairwise (fun a b => a.id ≤ b.id)) ∧
    (∀ ops : List Op, (∀ op ∈ ops, isAdd op = true) →
      (list_expenses (runOps initDB ops)).length = ops.length) := by
  refine ⟨?_, ?_, ?_⟩
  · simp [list_expenses, initDB]
  · intro db
    refine ⟨List.mergeSort_perm _ _, ?_⟩
    refine List.Pairwise.imp ?_ (List.sorted_mergeSort ?_ ?_ db.rows)
    · intro a b hab
      exact of_decide_eq_true hab
    · intro a b c hab hbc
      exact decide_eq_true (le_trans (of_decide_eq_true hab) (of_decide_eq_true hbc))
    · intro a b
      rcases le_total a.id b.id with h | h <;> simp [h]
  · intro ops hall
    have h := runOps_adds_length ops initDB hall
    simpa [list_expenses, initDB] using h

/-- A demonstration run of two creates and nothing else. -/
def demoAdds : List Op :=
  [Op.add "2024-01-01" 50 "Food" "" "",
   Op.add "2024-01-02" 20 "Transport" "" ""]

/-- C6, witness: after two creates and no deletes the listing has
exactly two records. -/
theorem C6_list_sorted_complete_witness :
    (list_expenses (runOps initDB demoAdds)).length = 2 :=
  C6_list_sorted_complete.2.2 demoAdds (by decide)

/-! ## Result shapes (status discriminator) -/

lemma edit_status_cases (db : DB) (i : Nat) (d : Option String) (a : Option Rat)
    (c s n : Option String) :
    (edit_expense db i d a c s n).2.status = "error" ∨
    (edit_expense db i d a c s n).2.status = "warning" ∨
    (edit_expense db i d a c s n).2.status = "success" := by
  by_cases hp : present db i
  · by_cases hall : d = none ∧ a = none ∧ c = none ∧ s = none ∧ n = none
    · obtain ⟨h1, h2, h3, h4, h5⟩ := hall
      subst h1; subst h2; subst h3; subst h4; subst h5
      rw [edit_expense_nofields _ _ hp]
      exact Or.inr (Or.inl rfl)
    · rw [edit_expense_success _ _ _ _ _ _ _ hp hall]
      exact Or.inr (Or.inr rfl)
  · rw [edit_expense_absent _ _ _ _ _ _ _ hp]
    exact Or.inl rfl

lemma delete_status_cases (db : DB) (i : Nat) :
    (delete_expense db i).2.status = "error" ∨
    (delete_expense db i).2.status = "success" := by
  by_cases hp : present db i
  · rw [delete_expense_present _ _ hp]
    exact Or.inr rfl
  · rw [delete_expense_absent _ _ hp]
    exact Or.inl rfl

lemma hasStatusField_opResult {r : OpResult}
    (h : r.status = "error" ∨ r.status = "warning" ∨ r.status = "success") :
    hasStatusField (opResultJson r) = true := by
  rcases h with h | h | h <;> simp [opResultJson, hasStatusField, isStatusVal, h]

/-- C8, counterexample: not every operation returns a mapping with a
`status` discriminator. On the fresh store, `summarize_expenses`
returns a mapping whose only keys are `total` and `by_category` — no
`status` — and `list_expenses` returns a bare array, not a mapping at
all. -/
theorem C8_counterexample :
    summarizeJson initDB = .jobj [("total", .jnum 0), ("by_category", .jobj [])] ∧
    hasStatusField (summarizeJson initDB) = false ∧
    listJson initDB = .jarr [] ∧
    hasStatusField (listJson initDB) = false := by
  have hsum : summarize_expenses initDB = ⟨0, []⟩ := by
    simp [summarize_expenses, sumAmounts, by_category, groupedCategories, initDB]
  have hlist : list_expenses initDB = [] := by
    simp [list_expenses, initDB]
  have h1 : summarizeJson initDB =
      .jobj [("total", .jnum 0), ("by_category", .jobj [])] := by
    simp [summarizeJson, hsum]
  have h2 : listJson initDB = .jarr [] := by
    simp [listJson, hlist]
  exact ⟨h1, by rw [h1]; decide, h2, by rw [h2]; decide⟩

/-- C8, amended: the three mutating operations (create, update, delete)
each return a mapping with a `status` field valued in
success/warning/error; but `list_expenses` returns a bare sequence with
no status, and `summarize_expenses` returns a mapping with only `total`
and `by_category`, also with no status. -/
theorem C8_status_field_amended (db : DB) (date : String) (amount : Rat)
    (category subcategory note : String) (i : Nat) (d2 : Option String)
    (a2 : Option Rat) (c2 s2 n2 : Option String) :
    hasStatusField
      (addResultJson (add_expense db date amount category subcategory note).2) = true ∧
    hasStatusField (opResultJson (edit_expense db i d2 a2 c2 s2 n2).2) = true ∧
    hasStatusField (opResultJson (delete_expense db i).2) = true ∧
    hasStatusField (listJson db) = false ∧
    hasStatusField (summarizeJson db) = false := by
  refine ⟨rfl, hasStatusField_opResult (edit_status_cases db i d2 a2 c2 s2 n2),
    hasStatusField_opResult ?_, rfl, rfl⟩
  rcases delete_status_cases db i with h | h
  · exact Or.inl h
  · exact Or.inr (Or.inr h)

end ExpenseTracker
